import Mathlib

/-!
Shallow embedding of the pybeast simulation/evolution core
(`src/pybeast/core/...`), with theorems settling the spec claims about
vector geometry, animat motion and collision, the genetic algorithm,
the feed-forward network, and the sensor evaluation functors.

Geometry and anything involving `np.sqrt`/`np.cos`/`np.exp` is embedded
over `ℝ`; the genetic-algorithm and genotype list manipulations, which are
plain arithmetic and list slicing in the source, are embedded over `ℚ` so
that witnesses evaluate by `decide`.
-/

namespace PyBeast

/-! ## Vector2D (`core/utils/vector2D.py`) -/

/-- Embeds the Python class `Vector2D`: an (x, y) pair of floats. -/
structure Vector2D where
  x : ℝ
  y : ℝ

namespace Vector2D

/-- `Vector2D.__add__`. -/
noncomputable def add (a b : Vector2D) : Vector2D := ⟨a.x + b.x, a.y + b.y⟩

/-- `Vector2D.__sub__`. -/
noncomputable def sub (a b : Vector2D) : Vector2D := ⟨a.x - b.x, a.y - b.y⟩

/-- `Vector2D.__mul__(scalar)`. -/
noncomputable def smul (a : Vector2D) (c : ℝ) : Vector2D := ⟨a.x * c, a.y * c⟩

/-- `Vector2D.GetReciprocal` (returns `(-x, -y)`). -/
noncomputable def GetReciprocal (a : Vector2D) : Vector2D := ⟨-a.x, -a.y⟩

/-- `Vector2D.GetLengthSquared` (`x*x + y*y`). -/
noncomputable def GetLengthSquared (a : Vector2D) : ℝ := a.x * a.x + a.y * a.y

/-- `Vector2D.GetLength` (`np.sqrt` of the squared length). -/
noncomputable def GetLength (a : Vector2D) : ℝ := Real.sqrt a.GetLengthSquared

/-- `Vector2D(X=0, Y=0, l=l, a=a)`: polar construction `(l cos a, l sin a)`. -/
noncomputable def polar (l a : ℝ) : Vector2D := ⟨l * Real.cos a, l * Real.sin a⟩

/-- `Vector2D.Normalize`, functionally: the vector is scaled by `1/length`
when the length is nonzero, otherwise left untouched. -/
noncomputable def Normalize (a : Vector2D) : Vector2D :=
  if a.GetLength ≠ 0 then a.smul (1 / a.GetLength) else a

/-- `Vector2D.SetLength(l)`: `Normalize` followed by `*= l`. -/
noncomputable def SetLength (a : Vector2D) (l : ℝ) : Vector2D := a.Normalize.smul l

/-- `Vector2D.GetNormalized`: the unit vector in the direction of `a` when
the length is nonzero, and the fixed fallback `(0.0, 1.0)` otherwise. -/
noncomputable def GetNormalized (a : Vector2D) : Vector2D :=
  if a.GetLength ≠ 0 then ⟨a.x / a.GetLength, a.y / a.GetLength⟩ else ⟨0, 1⟩

lemma lengthSquared_nonneg (a : Vector2D) : 0 ≤ a.GetLengthSquared := by
  have hx := mul_self_nonneg a.x
  have hy := mul_self_nonneg a.y
  unfold GetLengthSquared
  linarith

lemma length_nonneg (a : Vector2D) : 0 ≤ a.GetLength := Real.sqrt_nonneg _

lemma length_smul (a : Vector2D) (c : ℝ) : (a.smul c).GetLength = |c| * a.GetLength := by
  unfold GetLength GetLengthSquared smul
  have h : a.x * c * (a.x * c) + a.y * c * (a.y * c) = (c * c) * (a.x * a.x + a.y * a.y) := by
    ring
  rw [h, Real.sqrt_mul (mul_self_nonneg c)]
  congr 1
  rw [show c * c = c ^ 2 by ring, Real.sqrt_sq_eq_abs]

lemma sq_length (a : Vector2D) : a.GetLength * a.GetLength = a.GetLengthSquared := by
  unfold GetLength
  exact Real.mul_self_sqrt a.lengthSquared_nonneg

lemma length_eq_zero_iff (a : Vector2D) : a.GetLength = 0 ↔ a = ⟨0, 0⟩ := by
  unfold GetLength
  rw [Real.sqrt_eq_zero a.lengthSquared_nonneg]
  constructor
  · intro h
    have hx := mul_self_nonneg a.x
    have hy := mul_self_nonneg a.y
    have hx0 : a.x * a.x = 0 := by
      unfold GetLengthSquared at h
      linarith
    have hy0 : a.y * a.y = 0 := by
      unfold GetLengthSquared at h
      linarith
    cases a
    simp only [mk.injEq]
    constructor
    · exact mul_self_eq_zero.mp hx0
    · exact mul_self_eq_zero.mp hy0
  · intro h
    subst h
    unfold GetLengthSquared
    ring

end Vector2D

/-! ## Animat motion update (`core/agents/animat.py`, `Animat.Update`) -/

/-- `ANIMAT_DRAG = 50.0` from `animat.py`. -/
noncomputable def ANIMAT_DRAG : ℝ := 50

/-- Python float modulo `a % b` (result has the sign of `b`, i.e. floor mod). -/
noncomputable def pyMod (a b : ℝ) : ℝ := a - b * (⌊a / b⌋ : ℤ)

/-- `Drawable.OffsetOrientation(o)` from `core/world/drawable.py`: add the
offset, add `2π` once if negative, then take the result modulo `2π`. -/
noncomputable def OffsetOrientation (orientation o : ℝ) : ℝ :=
  pyMod (if orientation + o < 0 then orientation + o + 2 * Real.pi
         else orientation + o) (2 * Real.pi)

/-- The velocity pipeline of `Animat.Update` (animat.py lines 196-210):
turn the orientation by `maxTurn * (left - right) * dt`, add a polar vector
of magnitude `(maxSpeed - minSpeed) * 0.5 * (left + right) + minSpeed` along
the new orientation, subtract drag `velocity * (1/maxSpeed) * ANIMAT_DRAG`
when `maxSpeed > 0`, and clamp with `SetLength maxSpeed` when the squared
length exceeds `maxSpeed ** 2`.  The remaining statements of `Update`
(location integration, toroidal wrap, sensors, trail, accounting) never
write to `self.velocity`, so this value is the animat's velocity when
`Update()` returns. -/
noncomputable def animatUpdateVelocity (velocity : Vector2D)
    (orientation ctrlLeft ctrlRight minSpeed maxSpeed maxTurn dt : ℝ) :
    Vector2D :=
  let orient' := OffsetOrientation orientation (maxTurn * (ctrlLeft - ctrlRight) * dt)
  let v1 := velocity.add
    (Vector2D.polar ((maxSpeed - minSpeed) * 0.5 * (ctrlLeft + ctrlRight) + minSpeed) orient')
  let v2 := if 0 < maxSpeed then v1.sub ((v1.smul (1 / maxSpeed)).smul ANIMAT_DRAG) else v1
  if maxSpeed ^ 2 < v2.GetLengthSquared then v2.SetLength maxSpeed else v2

lemma normalize_length_of_ne_zero (a : Vector2D) (ha : a.GetLength ≠ 0) :
    a.Normalize.GetLength = 1 := by
  have hpos : 0 < a.GetLength := lt_of_le_of_ne a.length_nonneg (Ne.symm ha)
  unfold Vector2D.Normalize
  rw [if_pos ha, Vector2D.length_smul, abs_of_pos (by positivity)]
  field_simp

lemma setLength_length_of_ne_zero (a : Vector2D) (l : ℝ) (ha : a.GetLength ≠ 0) :
    (a.SetLength l).GetLength = |l| := by
  unfold Vector2D.SetLength
  rw [Vector2D.length_smul, normalize_length_of_ne_zero a ha, mul_one]

/-- C1: after `Animat.Update()` the magnitude of the animat's velocity is at
most `maxSpeed` (for any animat whose configured `maxSpeed` is nonnegative):
either the squared length was at most `maxSpeed ** 2` already, or the
velocity is rescaled to length exactly `maxSpeed` by `SetLength`. -/
theorem animat_update_velocity_le_maxSpeed (velocity : Vector2D)
    (orientation ctrlLeft ctrlRight minSpeed maxSpeed maxTurn dt : ℝ)
    (h : 0 ≤ maxSpeed) :
    (animatUpdateVelocity velocity orientation ctrlLeft ctrlRight
        minSpeed maxSpeed maxTurn dt).GetLength ≤ maxSpeed := by
  have key : ∀ v2 : Vector2D,
      (if maxSpeed ^ 2 < v2.GetLengthSquared then v2.SetLength maxSpeed else v2).GetLength
        ≤ maxSpeed := by
    intro v2
    by_cases hc : maxSpeed ^ 2 < v2.GetLengthSquared
    · rw [if_pos hc]
      have hne : v2.GetLength ≠ 0 := by
        intro h0
        have := v2.sq_length
        rw [h0] at this
        nlinarith [v2.lengthSquared_nonneg]
      rw [setLength_length_of_ne_zero v2 maxSpeed hne, abs_of_nonneg h]
    · rw [if_neg hc]
      push_neg at hc
      nlinarith [v2.sq_length, v2.length_nonneg]
  exact key _

/-- Witness for C1 at a concrete input (`maxSpeed = 100`, the default). -/
theorem animat_update_velocity_le_maxSpeed_witness :
    (0 : ℝ) ≤ 100 ∧
    (animatUpdateVelocity ⟨0, 0⟩ 0 1 1 (-50) 100 (2 * Real.pi) 0.05).GetLength ≤ 100 :=
  ⟨by norm_num,
   animat_update_velocity_le_maxSpeed ⟨0, 0⟩ 0 1 1 (-50) 100 (2 * Real.pi) 0.05 (by norm_num)⟩

/-! ## Animat collision (`core/agents/animat.py`, `Animat.Interact` with an
Animat, and `Animat.IsTouching`) -/

/-- The state of one circular animat body that `Animat.Interact` reads and
writes: location, velocity, radius and the solid flag. -/
structure AnimatBody where
  location : Vector2D
  velocity : Vector2D
  radius : ℝ
  solid : Bool

/-- `Animat.IsTouching(other)` for two circular animats: false when the
squared centre distance exceeds `minDistance * minDistance`, true otherwise
(the `other.IsCircular()` disjunct always holds for animats). -/
def AnimatIsTouching (a other : AnimatBody) : Prop :=
  (other.location.sub a.location).GetLengthSquared ≤
    (a.radius + other.radius) * (a.radius + other.radius)

noncomputable instance (a other : AnimatBody) : Decidable (AnimatIsTouching a other) := by
  unfold AnimatIsTouching
  infer_instance

/-- The state change of `Animat.Interact(other)` when `other` is an Animat
(animat.py lines 273-303): inside interaction range, if the bodies are
touching and both solid, both velocities become their average and each
location is offset along the (reciprocal) normalized centre-to-centre
vector by `minDistance - |vecToOther|`.  Sensor evaluation and the
`OnCollision` hooks do not modify these fields. -/
noncomputable def animatInteract (a other : AnimatBody) (interactionRange : ℝ) :
    AnimatBody × AnimatBody :=
  if (a.location.sub other.location).GetLength ≤ interactionRange then
    if AnimatIsTouching a other then
      if a.solid = true ∧ other.solid = true then
        let averageVelocity := (a.velocity.add other.velocity).smul 0.5
        let vecToOther := other.location.sub a.location
        let minDistance := a.radius + other.radius
        ({ a with
            velocity := averageVelocity
            location := a.location.add
              (vecToOther.GetReciprocal.GetNormalized.smul
                (minDistance - vecToOther.GetLength)) },
         { other with
            velocity := averageVelocity
            location := other.location.add
              (vecToOther.GetNormalized.smul
                (minDistance - vecToOther.GetLength)) })
      else (a, other)
    else (a, other)
  else (a, other)

lemma sqrt_thirtysix : Real.sqrt 36 = 6 := by
  rw [show (36 : ℝ) = 6 ^ 2 by norm_num]
  exact Real.sqrt_sq (by norm_num)

lemma sqrt_one_nine_six : Real.sqrt 196 = 14 := by
  rw [show (196 : ℝ) = 14 ^ 2 by norm_num]
  exact Real.sqrt_sq (by norm_num)

/-- Counterexample to C2 as stated: two solid animats of radius 5 whose
centres are 6 apart (overlap 4) end up 14 apart after `Interact`, not at
centre distance `5 + 5 = 10`: each body is offset by the full overlap, so
the final distance is `2 * (r1 + r2) - d`. -/
theorem animat_interact_distance_not_sum_radii :
    ((animatInteract ⟨⟨0, 0⟩, ⟨0, 0⟩, 5, true⟩ ⟨⟨6, 0⟩, ⟨0, 0⟩, 5, true⟩ 100).2.location.sub
      (animatInteract ⟨⟨0, 0⟩, ⟨0, 0⟩, 5, true⟩ ⟨⟨6, 0⟩, ⟨0, 0⟩, 5, true⟩ 100).1.location).GetLength
      ≠ 5 + 5 := by
  have heval : animatInteract ⟨⟨0, 0⟩, ⟨0, 0⟩, 5, true⟩ ⟨⟨6, 0⟩, ⟨0, 0⟩, 5, true⟩ 100 =
      (⟨⟨-4, 0⟩, ⟨0, 0⟩, 5, true⟩, ⟨⟨10, 0⟩, ⟨0, 0⟩, 5, true⟩) := by
    unfold animatInteract AnimatIsTouching
    rw [if_pos, if_pos, if_pos]
    · simp only [Vector2D.sub, Vector2D.add, Vector2D.smul, Vector2D.GetReciprocal,
        Vector2D.GetNormalized, Vector2D.GetLength, Vector2D.GetLengthSquared]
      norm_num [sqrt_thirtysix]
    · exact ⟨rfl, rfl⟩
    · simp only [Vector2D.sub, Vector2D.GetLengthSquared]
      norm_num
    · simp only [Vector2D.sub, Vector2D.GetLength, Vector2D.GetLengthSquared]
      norm_num [sqrt_thirtysix]
  rw [heval]
  simp only [Vector2D.sub, Vector2D.GetLength, Vector2D.GetLengthSquared]
  norm_num [sqrt_one_nine_six]

/-- C2 as amended: for solid animats in range with overlapping bodies and a
nonzero separation vector, `Interact` sets both velocities to the average and
offsets each location along the connecting normal by the exact overlap
`minDistance - d`; the resulting centre distance is `2 * minDistance - d`,
which is at least the sum of the radii (exactly the sum only when the bodies
were exactly touching). -/
theorem animat_interact_collision (a other : AnimatBody) (interactionRange : ℝ)
    (hsA : a.solid = true) (hsB : other.solid = true)
    (hrange : (a.location.sub other.location).GetLength ≤ interactionRange)
    (hd : 0 < (other.location.sub a.location).GetLength)
    (htouch : AnimatIsTouching a other)
    (hra : 0 ≤ a.radius) (hrb : 0 ≤ other.radius) :
    (animatInteract a other interactionRange).1.velocity =
        (a.velocity.add other.velocity).smul 0.5 ∧
    (animatInteract a other interactionRange).2.velocity =
        (a.velocity.add other.velocity).smul 0.5 ∧
    (animatInteract a other interactionRange).1.location =
        a.location.add ((other.location.sub a.location).GetReciprocal.GetNormalized.smul
          ((a.radius + other.radius) - (other.location.sub a.location).GetLength)) ∧
    (animatInteract a other interactionRange).2.location =
        other.location.add ((other.location.sub a.location).GetNormalized.smul
          ((a.radius + other.radius) - (other.location.sub a.location).GetLength)) ∧
    ((animatInteract a other interactionRange).2.location.sub
        (animatInteract a other interactionRange).1.location).GetLength =
      2 * (a.radius + other.radius) - (other.location.sub a.location).GetLength ∧
    a.radius + other.radius ≤
      ((animatInteract a other interactionRange).2.location.sub
        (animatInteract a other interactionRange).1.location).GetLength := by
  set u := other.location.sub a.location with hu
  set d := u.GetLength with hdd
  set m := a.radius + other.radius with hm
  have hdne : d ≠ 0 := ne_of_gt hd
  have hm0 : 0 ≤ m := by rw [hm]; linarith
  have hdm : d ≤ m := by
    have h1 : d * d = u.GetLengthSquared := u.sq_length
    have h2 : u.GetLengthSquared ≤ m * m := htouch
    nlinarith
  have hrecip_len : u.GetReciprocal.GetLength = d := by
    rw [hdd]
    unfold Vector2D.GetReciprocal Vector2D.GetLength Vector2D.GetLengthSquared
    ring_nf
  have heval : animatInteract a other interactionRange =
      ({ a with
          velocity := (a.velocity.add other.velocity).smul 0.5
          location := a.location.add (u.GetReciprocal.GetNormalized.smul (m - d)) },
       { other with
          velocity := (a.velocity.add other.velocity).smul 0.5
          location := other.location.add (u.GetNormalized.smul (m - d)) }) := by
    unfold animatInteract
    rw [if_pos hrange, if_pos htouch, if_pos ⟨hsA, hsB⟩]
  have hnorm : u.GetNormalized = ⟨u.x / d, u.y / d⟩ := by
    unfold Vector2D.GetNormalized
    rw [if_pos (by rw [← hdd]; exact hdne)]
  have hnormr : u.GetReciprocal.GetNormalized = ⟨-u.x / d, -u.y / d⟩ := by
    unfold Vector2D.GetNormalized
    rw [if_pos (by rw [hrecip_len]; exact hdne), hrecip_len]
    rfl
  have key : ∀ p q w : ℝ, p - q = w →
      (p + w / d * (m - d)) - (q + -w / d * (m - d)) = w * ((2 * m - d) / d) := by
    intro p q w hw
    field_simp
    linear_combination d * hw
  have hdiff : ((animatInteract a other interactionRange).2.location.sub
      (animatInteract a other interactionRange).1.location) = u.smul ((2 * m - d) / d) := by
    rw [heval]
    simp only [Vector2D.sub, Vector2D.add, Vector2D.smul, hnorm, hnormr]
    have hux : other.location.x - a.location.x = u.x := by rw [hu]; rfl
    have huy : other.location.y - a.location.y = u.y := by rw [hu]; rfl
    simp only [Vector2D.mk.injEq]
    exact ⟨key _ _ _ hux, key _ _ _ huy⟩
  have hlen : ((animatInteract a other interactionRange).2.location.sub
      (animatInteract a other interactionRange).1.location).GetLength = 2 * m - d := by
    rw [hdiff, Vector2D.length_smul, ← hdd,
      abs_of_nonneg (div_nonneg (by linarith) (le_of_lt hd))]
    field_simp
  refine ⟨?_, ?_, ?_, ?_, hlen, ?_⟩
  · rw [heval]
  · rw [heval]
  · rw [heval]
  · rw [heval]
  · rw [hlen]
    linarith

/-- Witness for C2 (amended) at the concrete overlap scenario used above:
radius-5 solid animats 6 apart end `2 * 10 - 6 = 14` apart. -/
theorem animat_interact_collision_witness :
    ((animatInteract ⟨⟨0, 0⟩, ⟨0, 0⟩, 5, true⟩ ⟨⟨6, 0⟩, ⟨0, 0⟩, 5, true⟩ 100).2.location.sub
      (animatInteract ⟨⟨0, 0⟩, ⟨0, 0⟩, 5, true⟩ ⟨⟨6, 0⟩, ⟨0, 0⟩, 5, true⟩ 100).1.location).GetLength =
      2 * ((5 : ℝ) + 5) -
        ((Vector2D.mk 6 0).sub (Vector2D.mk 0 0)).GetLength :=
  (animat_interact_collision ⟨⟨0, 0⟩, ⟨0, 0⟩, 5, true⟩ ⟨⟨6, 0⟩, ⟨0, 0⟩, 5, true⟩ 100
    rfl rfl
    (by simp only [Vector2D.sub, Vector2D.GetLength, Vector2D.GetLengthSquared]
        norm_num [sqrt_thirtysix])
    (by simp only [Vector2D.sub, Vector2D.GetLength, Vector2D.GetLengthSquared]
        norm_num [sqrt_thirtysix])
    (by unfold AnimatIsTouching
        simp only [Vector2D.sub, Vector2D.GetLengthSquared]
        norm_num)
    (by norm_num) (by norm_num)).2.2.2.2.1

/-- C8: `Vector2D.GetNormalized` never divides by zero: a nonzero vector is
sent to the unit vector in the same direction (a positive scalar multiple of
the input, of length 1), and the exact zero vector is sent to the fixed unit
direction `(0.0, 1.0)`. -/
theorem getNormalized_safe (v : Vector2D) :
    (v ≠ ⟨0, 0⟩ →
      (v.GetNormalized.GetLength = 1 ∧
       ∃ c : ℝ, 0 < c ∧ v.GetNormalized = v.smul c)) ∧
    (v = ⟨0, 0⟩ → v.GetNormalized = ⟨0, 1⟩) := by
  constructor
  · intro hv
    have hlen : v.GetLength ≠ 0 := fun h => hv (v.length_eq_zero_iff.mp h)
    have hpos : 0 < v.GetLength := lt_of_le_of_ne v.length_nonneg (Ne.symm hlen)
    have heq : v.GetNormalized = v.smul (1 / v.GetLength) := by
      unfold Vector2D.GetNormalized Vector2D.smul
      rw [if_pos hlen]
      simp [div_eq_mul_inv, mul_comm]
    constructor
    · rw [heq, Vector2D.length_smul]
      rw [abs_of_pos (by positivity)]
      field_simp
    · exact ⟨1 / v.GetLength, by positivity, heq⟩
  · intro hv
    have hlen : v.GetLength = 0 := v.length_eq_zero_iff.mpr hv
    unfold Vector2D.GetNormalized
    rw [if_neg (by simp [hlen])]

/-- Witness for C8 at concrete inputs: `(3, 4)` is nonzero, and the zero
vector is sent to `(0, 1)`. -/
theorem getNormalized_safe_witness :
    (Vector2D.mk 3 4 ≠ ⟨0, 0⟩) ∧ (Vector2D.mk 0 0).GetNormalized = ⟨0, 1⟩ :=
  ⟨by intro h; injection h with h1 h2; norm_num at h1,
   (getNormalized_safe ⟨0, 0⟩).2 rfl⟩

/-! ## Genetic algorithm (`core/evolve/geneticalgorithm.py`)

Genotypes and fitness scores are lists of floats manipulated with plain
arithmetic and slicing, embedded here over `ℚ`.  An `Evolver` member is
represented by its `GAFitnessScores` history (a `List ℚ`). -/

/-- `GeneticAlgorithm.CrossoverGenotypes(mum, dad)` at cut index `k` (the
source draws `k = random.randint(0, self.chromoLength - 1)`, i.e. uniformly
from `0 .. chromoLength - 1` inclusive): `child1 = mum[:k] + dad[k:]` and
`child2 = dad[:k] + mum[k:]` via `np.concatenate`. -/
def CrossoverGenotypes (k : ℕ) (mum dad : List ℚ) : List ℚ × List ℚ :=
  (mum.take k ++ dad.drop k, dad.take k ++ mum.drop k)

/-- C3: for equal-length parents and any cut index `k` in the drawn range,
both children have the parents' common length, and gene `i` of `child1`
comes from `mum` when `i < k` and from `dad` otherwise (symmetrically for
`child2`). -/
theorem crossover_genotypes_spec (k : ℕ) (mum dad : List ℚ)
    (hlen : mum.length = dad.length) (hk : k < mum.length) :
    ((CrossoverGenotypes k mum dad).1.length = mum.length ∧
     (CrossoverGenotypes k mum dad).2.length = mum.length) ∧
    (∀ i : ℕ, (CrossoverGenotypes k mum dad).1.get? i =
        if i < k then mum.get? i else dad.get? i) ∧
    (∀ i : ℕ, (CrossoverGenotypes k mum dad).2.get? i =
        if i < k then dad.get? i else mum.get? i) := by
  have hkd : k < dad.length := hlen ▸ hk
  have htm : (mum.take k).length = k := by
    rw [List.length_take]
    exact min_eq_left (le_of_lt hk)
  have htd : (dad.take k).length = k := by
    rw [List.length_take]
    exact min_eq_left (le_of_lt hkd)
  refine ⟨⟨?_, ?_⟩, ?_, ?_⟩
  · simp only [CrossoverGenotypes, List.length_append, List.length_take, List.length_drop]
    omega
  · simp only [CrossoverGenotypes, List.length_append, List.length_take, List.length_drop]
    omega
  · intro i
    by_cases hi : i < k
    · rw [if_pos hi]
      unfold CrossoverGenotypes
      rw [List.get?_append (by rw [htm]; exact hi), List.get?_take hi]
    · rw [if_neg hi]
      unfold CrossoverGenotypes
      rw [List.get?_append_right (by rw [htm]; omega), htm, List.get?_drop]
      congr 1
      omega
  · intro i
    by_cases hi : i < k
    · rw [if_pos hi]
      unfold CrossoverGenotypes
      rw [List.get?_append (by rw [htd]; exact hi), List.get?_take hi]
    · rw [if_neg hi]
      unfold CrossoverGenotypes
      rw [List.get?_append_right (by rw [htd]; omega), htd, List.get?_drop]
      congr 1
      omega

/-- Witness for C3 at `k = 1`, `mum = [0, 1]`, `dad = [2, 3]`. -/
theorem crossover_genotypes_spec_witness :
    ([0, 1] : List ℚ).length = ([2, 3] : List ℚ).length ∧
    (CrossoverGenotypes 1 [0, 1] [2, 3]).1.get? 1 = some 3 := by
  refine ⟨by decide, ?_⟩
  have h := (crossover_genotypes_spec 1 [0, 1] [2, 3] (by decide) (by decide)).2.1 1
  simpa using h

/-- `np.max` of a nonempty list (the `[]` case is never reached: callers
guard on emptiness first). -/
def listMax : List ℚ → ℚ
  | [] => 0
  | x :: xs => xs.foldl max x

/-- `np.min` of a nonempty list. -/
def listMin : List ℚ → ℚ
  | [] => 0
  | x :: xs => xs.foldl min x

/-- `GeneticAlgorithm.GetFitness(evo)`: `None` when the member's
`GAFitnessScores` history is empty, otherwise the aggregate chosen by
`fitnessMethod` (`GA_BEST_FITNESS = 0`, `GA_WORST_FITNESS = 1`,
`GA_MEAN_FITNESS = 2`, `GA_TOTAL_FITNESS = 3`, anything else `0.0`). -/
def GetFitness (fitnessMethod : ℕ) (scores : List ℚ) : Option ℚ :=
  if scores = [] then none
  else some
    (if fitnessMethod = 0 then listMax scores
     else if fitnessMethod = 1 then listMin scores
     else if fitnessMethod = 2 then scores.sum / scores.length
     else if fitnessMethod = 3 then scores.sum
     else 0)

/-- The member loop of `GeneticAlgorithm.CalcStats` (lines 295-307).  The
running best/worst are `Option ℚ` because Python initializes them to
`GetFitness(members[0])`, which is `None` for an unassessed first member;
comparing a float against `None` with `>` or `<` raises `TypeError`. -/
def calcStatsLoop (fitnessMethod : ℕ) :
    List (List ℚ) → Option ℚ → Option ℚ → ℚ → Except String (Option ℚ × Option ℚ × ℚ)
  | [], best, worst, total => .ok (best, worst, total)
  | evo :: rest, best, worst, total =>
    match GetFitness fitnessMethod evo with
    | none => calcStatsLoop fitnessMethod rest best worst total
    | some f =>
      match best with
      | none => .error "TypeError"
      | some b =>
        if b < f then calcStatsLoop fitnessMethod rest (some f) worst (total + f)
        else
          match worst with
          | none => .error "TypeError"
          | some w =>
            if f < w then calcStatsLoop fitnessMethod rest (some b) (some f) (total + f)
            else calcStatsLoop fitnessMethod rest (some b) (some w) (total + f)

/-- `GeneticAlgorithm.CalcStats()` (lines 281-317), returning
`(bestFitness, worstFitness, totalFitness)`.  The leading asserts reject an
odd population and out-of-range culling/elitism; best and worst start from
`GetFitness(members[0])`; after the loop the source compares
`self.bestFitness > self.bestEverFitness` (a float), which raises
`TypeError` when `bestFitness` is still `None`. -/
def CalcStats (fitnessMethod culling elitism : ℕ) (members : List (List ℚ)) :
    Except String (Option ℚ × Option ℚ × ℚ) :=
  let n := members.length
  if n % 2 ≠ 0 then .error "AssertionError: popSize must be even"
  else if ¬ ((culling : ℤ) ≤ (n : ℤ) - 2) then
    .error "AssertionError: culling must be smaller than popSize-2"
  else if ¬ ((elitism : ℤ) ≤ (n : ℤ) - (culling : ℤ)) then
    .error "AssertionError: elitism must be smaller than popSize - culling"
  else
    match members with
    | [] => .error "IndexError"
    | e0 :: _ =>
      let best0 := GetFitness fitnessMethod e0
      match calcStatsLoop fitnessMethod members best0 best0 0 with
      | .error e => .error e
      | .ok (best, worst, total) =>
        match best with
        | none => .error "TypeError"
        | some b => .ok (some b, worst, total)

/-- C4 fails on the code: with an unassessed member in the FIRST position
(`members = [[], [1]]`, both culling and elitism 0, best-fitness mode),
`CalcStats` initializes `bestFitness = GetFitness(members[0]) = None` and the
comparison `f > None` for the assessed second member raises `TypeError`
instead of skipping the unassessed member. -/
theorem calcStats_first_unassessed_raises :
    CalcStats 0 0 0 [[], [1]] = .error "TypeError" := by rfl

/-- One member's `FixFitness` step (lines 393-413): `GA_FIX = 2` shifts by
the worst fitness, `GA_CLAMP = 1` clamps to zero (`max(0, f)`), and
`GA_IGNORE = 0` (or any other value) leaves the fitness unchanged. -/
def FixFitnessOne (fitnessFix : ℕ) (worst f : ℚ) : ℚ :=
  if fitnessFix = 2 then f - worst
  else if fitnessFix = 1 then max 0 f
  else f

/-- Stable descending insertion, auxiliary to `sortDesc`. -/
def insertDesc (x : ℚ) : List ℚ → List ℚ
  | [] => [x]
  | y :: ys => if y ≤ x then x :: y :: ys else y :: insertDesc x ys

/-- `self.population.members.sort(key=..., reverse=True)` (line 335) on the
members' fixed fitness values: a descending sort. -/
def sortDesc : List ℚ → List ℚ
  | [] => []
  | x :: xs => insertDesc x (sortDesc xs)

/-- The fixed fitnesses of a fully assessed population: `FixFitness`
(lines 393-413) applied memberwise. -/
def fixedFitnesses (fitnessFix : ℕ) (worst : ℚ) (fitnesses : List ℚ) : List ℚ :=
  fitnesses.map (FixFitnessOne fitnessFix worst)

/-- The raw (pre-normalization) probabilities of `GeneticAlgorithm.Setup()`
(lines 341-363) for a fully assessed population, whose members are
represented by their GA fitness values: members are sorted by fixed fitness
descending; roulette assigns `(GAFixedFitness / totalFixedFitness)` to the
`GA_EXPONENT` power, rank assigns `(1 - rank / (inputPopSize - 1))` to the
same power.  The `GAFitness is None` guards never fire for assessed members
(and in fact can never fire at all, since `Evolver.__init__` sets
`GAFitness = 0.0`), and tournament selection computes no probabilities.
The float exponent (default `1.0`) is embedded as a natural exponent. -/
def rawProbabilities (roulette : Bool) (fitnessFix exponent : ℕ) (worst : ℚ)
    (fitnesses : List ℚ) : List ℚ :=
  if roulette then
    (sortDesc (fixedFitnesses fitnessFix worst fitnesses)).map
      (fun f => (f / (fixedFitnesses fitnessFix worst fitnesses).sum) ^ exponent)
  else
    (sortDesc (fixedFitnesses fitnessFix worst fitnesses)).enum.map
      (fun rf => (1 - (rf.1 : ℚ) / ((fitnesses.length : ℚ) - 1)) ^ exponent)

/-- The per-member probabilities when `Setup()` returns: every raw
probability is divided by `totalProbability` (lines 365-368). -/
def SetupProbabilities (roulette : Bool) (fitnessFix exponent : ℕ) (worst : ℚ)
    (fitnesses : List ℚ) : List ℚ :=
  (rawProbabilities roulette fitnessFix exponent worst fitnesses).map
    (fun p => p / (rawProbabilities roulette fitnessFix exponent worst fitnesses).sum)

lemma insertDesc_perm (x : ℚ) (l : List ℚ) : List.Perm (insertDesc x l) (x :: l) := by
  induction l with
  | nil => rfl
  | cons y ys ih =>
    unfold insertDesc
    by_cases h : y ≤ x
    · rw [if_pos h]
    · rw [if_neg h]
      exact ((ih.cons y).trans (List.Perm.swap x y ys))

lemma sortDesc_perm (l : List ℚ) : List.Perm (sortDesc l) l := by
  induction l with
  | nil => rfl
  | cons x xs ih =>
    unfold sortDesc
    exact (insertDesc_perm x (sortDesc xs)).trans (ih.cons x)

lemma sum_map_div (l : List ℚ) (c : ℚ) : (l.map (fun p => p / c)).sum = l.sum / c := by
  induction l with
  | nil => simp
  | cons x xs ih => simp [ih, add_div]

lemma exists_pos_of_sum_pos (l : List ℚ) (h : 0 < l.sum) : ∃ x ∈ l, 0 < x := by
  induction l with
  | nil => simp at h
  | cons x xs ih =>
    by_cases hx : 0 < x
    · exact ⟨x, List.mem_cons_self x xs, hx⟩
    · push_neg at hx
      have hxs : 0 < xs.sum := by
        simp only [List.sum_cons] at h
        linarith
      obtain ⟨y, hy, hypos⟩ := ih hxs
      exact ⟨y, List.mem_cons_of_mem x hy, hypos⟩

lemma rank_factor_nonneg (r n exponent : ℕ) (hr : r < n) (hn : 2 ≤ n) :
    (0 : ℚ) ≤ (1 - (r : ℚ) / ((n : ℚ) - 1)) ^ exponent := by
  have hn2 : (2 : ℚ) ≤ (n : ℚ) := by exact_mod_cast hn
  have hpos : (0 : ℚ) < (n : ℚ) - 1 := by linarith
  have hrq : (r : ℚ) ≤ (n : ℚ) - 1 := by
    have h1 : (r : ℚ) + 1 ≤ (n : ℚ) := by exact_mod_cast hr
    linarith
  have hle : (r : ℚ) / ((n : ℚ) - 1) ≤ 1 := by
    rw [div_le_one hpos]
    exact hrq
  exact pow_nonneg (by linarith) _

/-- Counterexample to C5 as stated: roulette selection with the default
`GA_IGNORE` fitness fix and assessed fitnesses `[3, -1]` produces the
selection probabilities `[3/2, -1/2]` — they sum to 1 but are not all
non-negative. -/
theorem setup_probabilities_counterexample :
    ¬ (∀ p ∈ SetupProbabilities true 0 1 (-1) [3, -1], 0 ≤ p) := by
  have heval : SetupProbabilities true 0 1 (-1) [3, -1] = [3/2, -1/2] := by
    norm_num [SetupProbabilities, rawProbabilities, fixedFitnesses, FixFitnessOne,
      sortDesc, insertDesc]
  intro hall
  have h := hall (-1/2) (by rw [heval]; norm_num)
  norm_num at h

/-- C5 as amended: the probabilities after `Setup()` are non-negative and
sum exactly to 1 for rank selection whenever the population has at least two
members, and for roulette selection under the additional assumption that all
fixed fitnesses are non-negative with positive total (e.g. after `GA_CLAMP`
with some positive score); roulette with signed fitnesses under `GA_IGNORE`
can yield negative probabilities. -/
theorem setup_probabilities_amended (roulette : Bool) (fitnessFix exponent : ℕ)
    (worst : ℚ) (fitnesses : List ℚ)
    (h : if roulette then
          (∀ f ∈ fixedFitnesses fitnessFix worst fitnesses, 0 ≤ f) ∧
            0 < (fixedFitnesses fitnessFix worst fitnesses).sum
         else 2 ≤ fitnesses.length) :
    (∀ p ∈ SetupProbabilities roulette fitnessFix exponent worst fitnesses, 0 ≤ p) ∧
    (SetupProbabilities roulette fitnessFix exponent worst fitnesses).sum = 1 := by
  have hperm : List.Perm (sortDesc (fixedFitnesses fitnessFix worst fitnesses))
      (fixedFitnesses fitnessFix worst fitnesses) := sortDesc_perm _
  have hsl : (sortDesc (fixedFitnesses fitnessFix worst fitnesses)).length =
      fitnesses.length := by
    rw [hperm.length_eq]
    unfold fixedFitnesses
    exact List.length_map _ _
  have hraw_nonneg : ∀ p ∈ rawProbabilities roulette fitnessFix exponent worst fitnesses,
      0 ≤ p := by
    intro p hp
    unfold rawProbabilities at hp
    cases roulette with
    | true =>
      rw [if_pos rfl] at hp h
      obtain ⟨f, hf, rfl⟩ := List.mem_map.mp hp
      exact pow_nonneg (div_nonneg (h.1 f (hperm.mem_iff.mp hf)) (le_of_lt h.2)) _
    | false =>
      rw [if_neg (by simp)] at hp h
      obtain ⟨⟨r, f⟩, hf, rfl⟩ := List.mem_map.mp hp
      have hr : r < fitnesses.length := by
        rw [← hsl]
        have hm := List.of_mem_zip (List.enum_eq_zip_range _ ▸ hf)
        exact List.mem_range.mp hm.1
      exact rank_factor_nonneg r fitnesses.length exponent hr h
  have hraw_pos : 0 < (rawProbabilities roulette fitnessFix exponent worst fitnesses).sum := by
    cases roulette with
    | true =>
      rw [if_pos rfl] at h
      obtain ⟨f, hf, hfpos⟩ := exists_pos_of_sum_pos _ h.2
      have hfs : f ∈ sortDesc (fixedFitnesses fitnessFix worst fitnesses) :=
        hperm.mem_iff.mpr hf
      have hmem : (f / (fixedFitnesses fitnessFix worst fitnesses).sum) ^ exponent ∈
          rawProbabilities true fitnessFix exponent worst fitnesses := by
        unfold rawProbabilities
        rw [if_pos rfl]
        exact List.mem_map.mpr ⟨f, hfs, rfl⟩
      calc (0 : ℚ) < (f / (fixedFitnesses fitnessFix worst fitnesses).sum) ^ exponent :=
            pow_pos (div_pos hfpos h.2) _
        _ ≤ _ := List.single_le_sum hraw_nonneg _ hmem
    | false =>
      rw [if_neg (by simp)] at h
      have hne : sortDesc (fixedFitnesses fitnessFix worst fitnesses) ≠ [] := by
        intro hnil
        rw [hnil] at hsl
        simp only [List.length_nil] at hsl
        omega
      obtain ⟨x, xs, hx⟩ := List.exists_cons_of_ne_nil hne
      have hmem : (1 - ((0 : ℕ) : ℚ) / ((fitnesses.length : ℚ) - 1)) ^ exponent ∈
          rawProbabilities false fitnessFix exponent worst fitnesses := by
        unfold rawProbabilities
        rw [if_neg (by simp)]
        refine List.mem_map.mpr ⟨(0, x), ?_, rfl⟩
        rw [hx, List.enum_cons]
        exact List.mem_cons_self _ _
      calc (0 : ℚ) < (1 - ((0 : ℕ) : ℚ) / ((fitnesses.length : ℚ) - 1)) ^ exponent := by
            norm_num
        _ ≤ _ := List.single_le_sum hraw_nonneg _ hmem
  constructor
  · intro p hp
    obtain ⟨q, hq, rfl⟩ := List.mem_map.mp hp
    exact div_nonneg (hraw_nonneg q hq) (le_of_lt hraw_pos)
  · unfold SetupProbabilities
    rw [sum_map_div, div_self (ne_of_gt hraw_pos)]

/-- Witness for C5 (amended), roulette selection over assessed fitnesses
`[1, 3]` with `GA_IGNORE`: the normalized probabilities sum to 1. -/
theorem setup_probabilities_amended_witness :
    (SetupProbabilities true 0 1 0 [1, 3]).sum = 1 :=
  (setup_probabilities_amended true 0 1 0 [1, 3]
    (by norm_num [fixedFitnesses, FixFitnessOne])).2

/-! ## Feed-forward network (`core/control/feedforwardnet.py`) and the
evolvable animat genotype (`core/agents/neuralanimat.py`, `EvoFFNAnimat`) -/

/-- The extra weight slot a bias node adds (`1 if bias else 0`). -/
def biasCount (b : Bool) : ℕ := if b then 1 else 0

/-- The state of a `FeedForwardNet` after `Init`: the construction
dimensions, the flags, the input buffer and both weight layers (each neuron
a weight vector, bias slot last).  `hiddenInit` is the `hidden` argument
passed to `Init`; the mutable `self.hidden` attribute is the derived
`FeedForwardNet.hidden` below, because `Init` reassigns
`self.hidden = self.inputs` when `hidden == 0` (lines 133-134). -/
structure FeedForwardNet (α : Type) where
  inputs : ℕ
  outputs : ℕ
  hiddenInit : ℕ
  sigmoid : Bool
  biasNode : Bool
  inputValues : List α
  hiddenLayer : List (List α)
  outputLayer : List (List α)

/-- The value of `self.hidden` when `Init` returns. -/
def FeedForwardNet.hidden (net : FeedForwardNet α) : ℕ :=
  if net.hiddenInit = 0 then net.inputs else net.hiddenInit

/-- `self.numberInputToHiddenWeights` (line 114), computed from the `hidden`
argument before the zero-hidden reassignment. -/
def numberInputToHiddenWeights (net : FeedForwardNet α) : ℕ :=
  (net.inputs + biasCount net.biasNode) * net.hiddenInit

/-- `self.numberHiddenToOutputWeights` (line 115), also computed before the
reassignment. -/
def numberHiddenToOutputWeights (net : FeedForwardNet α) : ℕ :=
  (net.hiddenInit + biasCount net.biasNode) * net.outputs

/-- `self.numberWeights` (line 116). -/
def numberWeights (net : FeedForwardNet α) : ℕ :=
  numberInputToHiddenWeights net + numberHiddenToOutputWeights net

/-- The layer shapes produced by `Init`: `hiddenInit` hidden neurons with
`inputs (+ bias)` weights each, and `outputs` output neurons with
`hidden (+ bias)` weights each (output neurons are created after the
reassignment, so they use the derived `hidden`). -/
def FeedForwardNet.wellFormed (net : FeedForwardNet α) : Prop :=
  net.hiddenLayer.length = net.hiddenInit ∧
  (∀ w ∈ net.hiddenLayer, w.length = net.inputs + biasCount net.biasNode) ∧
  net.outputLayer.length = net.outputs ∧
  (∀ w ∈ net.outputLayer, w.length = net.hidden + biasCount net.biasNode)

instance (net : FeedForwardNet α) : Decidable net.wellFormed := by
  unfold FeedForwardNet.wellFormed
  infer_instance

/-- `EvoFFNAnimat.GetGenotype`: `GetConfiguration` returns the two lists of
weight vectors, and the genome is
`np.concatenate((hidden.flatten(), output.flatten()))`. -/
def GetGenotype (net : FeedForwardNet α) : List α :=
  net.hiddenLayer.join ++ net.outputLayer.join

/-- `np.reshape` into `rows` rows of `cols` entries (the rows, given that
the caller checked the total size). -/
def reshapeRows (rows cols : ℕ) (l : List α) : List (List α) :=
  match rows with
  | 0 => []
  | r + 1 => l.take cols :: reshapeRows r cols (l.drop cols)

/-- `np.reshape((rows, cols))`, failing when the element count is wrong. -/
def npReshape (rows cols : ℕ) (l : List α) : Option (List (List α)) :=
  if l.length = rows * cols then some (reshapeRows rows cols l) else none

/-- The `zip`-and-assign loops of `FeedForwardNet.SetConfiguration`
(lines 214-222): each neuron in turn takes the corresponding new weight
vector, after an assert that the lengths agree; `zip` stops at the shorter
list, leaving any remaining neurons untouched. -/
def setWeightsZip : List (List α) → List (List α) → Option (List (List α))
  | old, [] => some old
  | [], _ => some []
  | o :: os, w :: ws =>
    if w.length = o.length then (setWeightsZip os ws).map (fun r => w :: r) else none

/-- `FeedForwardNet.SetConfiguration(configs)` (lines 206-222): asserts the
two outer lengths against `self.hidden` and `self.outputs`, then assigns
weights pairwise. -/
def SetConfiguration (net : FeedForwardNet α) (hiddenW outputW : List (List α)) :
    Option (FeedForwardNet α) :=
  if hiddenW.length = net.hidden ∧ outputW.length = net.outputs then
    match setWeightsZip net.hiddenLayer hiddenW, setWeightsZip net.outputLayer outputW with
    | some hl, some ol => some { net with hiddenLayer := hl, outputLayer := ol }
    | _, _ => none
  else none

/-- `EvoFFNAnimat.SetGenotype(genome)` (neuralanimat.py lines 173-189):
assert the genome length against `numberWeights`, split at
`numberInputToHiddenWeights`, reshape both halves against the net's current
dimensions (`self.myBrain.hidden` is the post-`Init` value), and apply
`SetConfiguration`. -/
def SetGenotype (genome : List α) (net : FeedForwardNet α) : Option (FeedForwardNet α) :=
  if genome.length = numberWeights net then
    match npReshape net.hidden (net.inputs + biasCount net.biasNode)
            (genome.take (numberInputToHiddenWeights net)),
          npReshape net.outputs (net.hidden + biasCount net.biasNode)
            (genome.drop (numberInputToHiddenWeights net)) with
    | some hw, some ow => SetConfiguration net hw ow
    | _, _ => none
  else none

lemma join_length_uniform (l : List (List α)) (c : ℕ)
    (h : ∀ w ∈ l, w.length = c) : l.join.length = l.length * c := by
  induction l with
  | nil => simp
  | cons w ws ih =>
    simp only [List.join_cons, List.length_append, List.length_cons]
    rw [h w (List.mem_cons_self w ws), ih (fun v hv => h v (List.mem_cons_of_mem w hv))]
    ring

lemma reshapeRows_join (l : List (List α)) (c : ℕ)
    (h : ∀ w ∈ l, w.length = c) : reshapeRows l.length c l.join = l := by
  induction l with
  | nil => rfl
  | cons w ws ih =>
    have hw : w.length = c := h w (List.mem_cons_self w ws)
    simp only [List.length_cons, List.join_cons, reshapeRows]
    rw [List.take_left' hw, List.drop_left' hw,
      ih (fun v hv => h v (List.mem_cons_of_mem w hv))]

lemma setWeightsZip_self (l : List (List α)) : setWeightsZip l l = some l := by
  induction l with
  | nil => rfl
  | cons w ws ih =>
    unfold setWeightsZip
    rw [if_pos rfl, ih]
    rfl

/-- C6: for any well-formed `FeedForwardNet` with at least one hidden neuron
(a fixed, consistent weight count), `SetGenotype(GetGenotype())` on an
`EvoFFNAnimat` succeeds and reproduces exactly the original hidden-layer and
output-layer weight matrices. -/
theorem evoffn_set_get_genotype_roundtrip (net : FeedForwardNet ℚ)
    (hwf : net.wellFormed) (hh : 1 ≤ net.hiddenInit) :
    SetGenotype (GetGenotype net) net = some net := by
  obtain ⟨hl1, hl2, hl3, hl4⟩ := hwf
  have hhid : net.hidden = net.hiddenInit := by
    unfold FeedForwardNet.hidden
    rw [if_neg (by omega)]
  have hjh : net.hiddenLayer.join.length = numberInputToHiddenWeights net := by
    rw [join_length_uniform net.hiddenLayer _ hl2, hl1]
    unfold numberInputToHiddenWeights
    ring
  have hjo : net.outputLayer.join.length = numberHiddenToOutputWeights net := by
    rw [join_length_uniform net.outputLayer _ hl4, hl3]
    unfold numberHiddenToOutputWeights
    rw [hhid]
    ring
  have htake : (GetGenotype net).take (numberInputToHiddenWeights net) =
      net.hiddenLayer.join := by
    unfold GetGenotype
    rw [← hjh, List.take_left]
  have hdrop : (GetGenotype net).drop (numberInputToHiddenWeights net) =
      net.outputLayer.join := by
    unfold GetGenotype
    rw [← hjh, List.drop_left]
  have hglen : (GetGenotype net).length = numberWeights net := by
    unfold GetGenotype numberWeights
    rw [List.length_append, hjh, hjo]
  have hr1 : npReshape net.hidden (net.inputs + biasCount net.biasNode)
      ((GetGenotype net).take (numberInputToHiddenWeights net)) = some net.hiddenLayer := by
    rw [htake]
    unfold npReshape
    rw [if_pos (by rw [hjh, hhid]; unfold numberInputToHiddenWeights; ring)]
    rw [hhid, ← hl1, reshapeRows_join net.hiddenLayer _ hl2]
  have hr2 : npReshape net.outputs (net.hidden + biasCount net.biasNode)
      ((GetGenotype net).drop (numberInputToHiddenWeights net)) = some net.outputLayer := by
    rw [hdrop]
    unfold npReshape
    rw [if_pos (by rw [hjo, hhid]; unfold numberHiddenToOutputWeights; ring)]
    rw [← hl3, reshapeRows_join net.outputLayer _ hl4]
  unfold SetGenotype
  rw [if_pos hglen, hr1, hr2]
  show SetConfiguration net net.hiddenLayer net.outputLayer = some net
  unfold SetConfiguration
  rw [if_pos ⟨by rw [hl1, hhid], hl3⟩, setWeightsZip_self, setWeightsZip_self]

/-- Witness for C6 at a concrete 1-input 1-hidden 1-output net with bias. -/
theorem evoffn_set_get_genotype_roundtrip_witness :
    SetGenotype (GetGenotype ⟨1, 1, 1, true, true, [0], [[1, 2]], [[3, 4]]⟩)
      (⟨1, 1, 1, true, true, [0], [[1, 2]], [[3, 4]]⟩ : FeedForwardNet ℚ) =
    some ⟨1, 1, 1, true, true, [0], [[1, 2]], [[3, 4]]⟩ :=
  evoffn_set_get_genotype_roundtrip _ (by decide) (by decide)

/-- `FFN_ACTIVATION_RESPONSE = 0.5` from `feedforwardnet.py`. -/
noncomputable def FFN_ACTIVATION_RESPONSE : ℝ := 0.5

/-- `FeedForwardNet.ActivationFunction(x)`: the `[-1, 1]` sigmoid
`2 / (1 + exp(-x / FFN_ACTIVATION_RESPONSE)) - 1` when `sigmoid` is set,
otherwise the hard threshold `1.0 if x > 0.0 else 0.0`. -/
noncomputable def ActivationFunction (sigmoid : Bool) (x : ℝ) : ℝ :=
  if sigmoid then 2 / (1 + Real.exp (-x / FFN_ACTIVATION_RESPONSE)) - 1
  else if 0 < x then 1 else 0

/-- `np.dot` on two equal-length float vectors. -/
noncomputable def dotList (a b : List ℝ) : ℝ :=
  ((a.zip b).map (fun p => p.1 * p.2)).sum

/-- `FFNeuron.WeightedSum(values)`: `np.dot(weights[:-1], values) +
weights[-1]` with a bias slot, `np.dot(weights, values)` without; `np.dot`
raises `ValueError` when the operand lengths disagree (`none` here). -/
noncomputable def WeightedSum (bias : Bool) (weights values : List ℝ) : Option ℝ :=
  if bias then
    if values.length + 1 = weights.length then
      some (dotList (weights.take (weights.length - 1)) values + weights.getLastD 0)
    else none
  else
    if values.length = weights.length then some (dotList weights values) else none

/-- One layer pass of `FeedForwardNet.Fire`: each neuron's weighted sum is
passed through the activation function and appended to the output list. -/
noncomputable def fireLayer (bias sigmoid : Bool) (values : List ℝ) :
    List (List ℝ) → Option (List ℝ)
  | [] => some []
  | neuron :: rest =>
    match WeightedSum bias neuron values, fireLayer bias sigmoid values rest with
    | some s, some out => some (ActivationFunction sigmoid s :: out)
    | _, _ => none

/-- `FeedForwardNet.Fire()` (lines 142-173): `hiddenOutput` starts as the
input values when `self.hidden == 0` (which after `Init`'s reassignment can
only happen when `inputs == 0` too) and `[]` otherwise, the hidden layer
appends its activations, and the output layer reads `hiddenOutput`. -/
noncomputable def Fire (net : FeedForwardNet ℝ) : Option (List ℝ) :=
  match fireLayer net.biasNode net.sigmoid net.inputValues net.hiddenLayer with
  | none => none
  | some hres =>
    fireLayer net.biasNode net.sigmoid
      ((if net.hidden = 0 then net.inputValues else []) ++ hres) net.outputLayer

/-- `FeedForwardNet.Init(inputs, outputs, hidden, sig, bias)`
(lines 90-140): zeroed input buffer, `hidden` neurons of `inputs (+ bias)`
zero weights, then — after the `self.hidden = self.inputs` reassignment for
`hidden == 0` — `outputs` neurons of `self.hidden (+ bias)` zero weights. -/
noncomputable def ffnInit (inputs outputs hidden : ℕ) (sig bias : Bool) :
    FeedForwardNet ℝ :=
  { inputs := inputs
    outputs := outputs
    hiddenInit := hidden
    sigmoid := sig
    biasNode := bias
    inputValues := List.replicate inputs 0
    hiddenLayer := List.replicate hidden (List.replicate (inputs + biasCount bias) 0)
    outputLayer := List.replicate outputs
      (List.replicate ((if hidden = 0 then inputs else hidden) + biasCount bias) 0) }

/-- C7 fails on the code: a net built with zero hidden units and one input
cannot fire.  `Init` reassigns `self.hidden = self.inputs = 1`, so `Fire`'s
`if self.hidden == 0` test is false and `hiddenOutput` stays empty; the
single output neuron then computes `np.dot` of its 1 input weight against an
empty vector, which raises `ValueError` instead of reading the input values
directly as the perceptron degeneration promises. -/
theorem ffn_fire_zero_hidden_raises :
    Fire (ffnInit 1 1 0 true true) = none := by
  have h1 : ffnInit 1 1 0 true true =
      { inputs := 1, outputs := 1, hiddenInit := 0, sigmoid := true, biasNode := true,
        inputValues := [0], hiddenLayer := [], outputLayer := [[0, 0]] } := by
    unfold ffnInit biasCount
    norm_num [List.replicate_succ]
  rw [h1]
  unfold Fire FeedForwardNet.hidden
  norm_num [fireLayer, WeightedSum]

/-! ## Sensor evaluation functors (`core/sensors/sensorfunctors.py`) -/

/-- `Vector2D.GetAngle`: `np.arctan2(y, x)` (the `(-π, π]` argument of the
point `(x, y)`, i.e. `Complex.arg`), shifted by `2π` when negative. -/
noncomputable def Vector2D.GetAngle (a : Vector2D) : ℝ :=
  if Complex.arg ⟨a.x, a.y⟩ < 0 then Complex.arg ⟨a.x, a.y⟩ + 2 * Real.pi
  else Complex.arg ⟨a.x, a.y⟩

/-- The mutable state of an `EvalNearest` functor (and of its subclasses
such as `EvalNearestAngle`): the configured `range`, the running
`nearestSoFar`, the best candidate (an abstract object identifier) and its
location, plus the last computed `distance`. -/
structure EvalNearestState where
  range : ℝ
  nearestSoFar : ℝ
  bestCandidate : Option ℕ
  bestCandidateVec : Option Vector2D
  distance : ℝ

/-- `EvalNearest.__init__(owner, range)`: `nearestSoFar = range`, no
candidate yet. -/
noncomputable def EvalNearestInit (range : ℝ) : EvalNearestState :=
  ⟨range, range, none, none, 0⟩

/-- `EvalNearest.Reset()`: clear the candidate and restore
`nearestSoFar = range`. -/
def EvalNearestReset (s : EvalNearestState) : EvalNearestState :=
  { s with bestCandidate := none, nearestSoFar := s.range }

/-- `EvalNearest.__call__(obj, loc)` with the owner at `ownerLoc`:
`distance = |owner.GetLocation() - loc|`; on a strict improvement over
`nearestSoFar` the candidate and its location are recorded. -/
noncomputable def EvalNearestCall (ownerLoc : Vector2D) (s : EvalNearestState)
    (obj : ℕ) (loc : Vector2D) : EvalNearestState :=
  if (ownerLoc.sub loc).GetLength < s.nearestSoFar then
    { s with
        distance := (ownerLoc.sub loc).GetLength
        nearestSoFar := (ownerLoc.sub loc).GetLength
        bestCandidate := some obj
        bestCandidateVec := some loc }
  else { s with distance := (ownerLoc.sub loc).GetLength }

/-- `EvalNearest.GetOutput()`: the running `nearestSoFar`. -/
def EvalNearestGetOutput (s : EvalNearestState) : ℝ := s.nearestSoFar

/-- C9: a candidate is recorded iff its distance is strictly below the
current `nearestSoFar` (which `Reset` restores to the range `R`); a
candidate at distance exactly `R` right after a reset is not recorded, and
`GetOutput` returns `R` when nothing has been recorded since the reset. -/
theorem evalNearest_spec (ownerLoc : Vector2D) (s : EvalNearestState)
    (obj : ℕ) (loc : Vector2D) :
    ((ownerLoc.sub loc).GetLength < s.nearestSoFar →
      (EvalNearestCall ownerLoc s obj loc).bestCandidate = some obj ∧
      (EvalNearestCall ownerLoc s obj loc).nearestSoFar = (ownerLoc.sub loc).GetLength) ∧
    (¬ (ownerLoc.sub loc).GetLength < s.nearestSoFar →
      (EvalNearestCall ownerLoc s obj loc).bestCandidate = s.bestCandidate ∧
      (EvalNearestCall ownerLoc s obj loc).nearestSoFar = s.nearestSoFar) ∧
    (EvalNearestReset s).nearestSoFar = s.range ∧
    EvalNearestGetOutput (EvalNearestReset s) = s.range ∧
    ((ownerLoc.sub loc).GetLength = s.range →
      (EvalNearestCall ownerLoc (EvalNearestReset s) obj loc).bestCandidate = none) := by
  refine ⟨?_, ?_, rfl, rfl, ?_⟩
  · intro hlt
    unfold EvalNearestCall
    rw [if_pos hlt]
    exact ⟨rfl, rfl⟩
  · intro hge
    unfold EvalNearestCall
    rw [if_neg hge]
    exact ⟨rfl, rfl⟩
  · intro heq
    unfold EvalNearestCall
    rw [if_neg (by rw [heq]; exact lt_irrefl _)]
    rfl

lemma sqrt_twentyfive : Real.sqrt 25 = 5 := by
  rw [show (25 : ℝ) = 5 ^ 2 by norm_num]
  exact Real.sqrt_sq (by norm_num)

/-- Witness for C9: an owner at the origin with a range-5 sensor does not
record a candidate at `(3, 4)` (distance exactly 5) right after a reset. -/
theorem evalNearest_spec_witness :
    (EvalNearestCall ⟨0, 0⟩ (EvalNearestReset (EvalNearestInit 5)) 0 ⟨3, 4⟩).bestCandidate
      = none :=
  (evalNearest_spec ⟨0, 0⟩ (EvalNearestInit 5) 0 ⟨3, 4⟩).2.2.2.2
    (by
      simp only [Vector2D.sub, Vector2D.GetLength, Vector2D.GetLengthSquared,
        EvalNearestInit]
      norm_num [sqrt_twentyfive])

/-- `EvalNearestAngle.GetOutput()` (lines 478-492) for an owner at
`ownerLoc` with orientation `ownerOrientation`: `0.0` when no candidate has
been detected since the last reset, otherwise the relative angle to the
recorded candidate location, shifted into `(-π, π]` (`bestCandidateVec` is
always set whenever `bestCandidate` is, so the `getD` default is never
read). -/
noncomputable def EvalNearestAngleGetOutput (ownerLoc : Vector2D)
    (ownerOrientation : ℝ) (s : EvalNearestState) : ℝ :=
  match s.bestCandidate with
  | none => 0
  | some _ =>
    if Real.pi < ((s.bestCandidateVec.getD ⟨0, 0⟩).sub ownerLoc).GetAngle - ownerOrientation
    then ((s.bestCandidateVec.getD ⟨0, 0⟩).sub ownerLoc).GetAngle - ownerOrientation
      - 2 * Real.pi
    else ((s.bestCandidateVec.getD ⟨0, 0⟩).sub ownerLoc).GetAngle - ownerOrientation

/-- C10: `EvalNearestAngle.GetOutput` returns exactly `0.0` whenever no
candidate has been recorded since the last reset (`bestCandidate is None`),
for any owner pose. -/
theorem evalNearestAngle_getOutput_none (ownerLoc : Vector2D)
    (ownerOrientation : ℝ) (s : EvalNearestState)
    (h : s.bestCandidate = none) :
    EvalNearestAngleGetOutput ownerLoc ownerOrientation s = 0 := by
  unfold EvalNearestAngleGetOutput
  rw [h]

/-- Witness for C10 at a freshly reset range-5 sensor state. -/
theorem evalNearestAngle_getOutput_none_witness :
    EvalNearestAngleGetOutput ⟨0, 0⟩ 0 (EvalNearestReset (EvalNearestInit 5)) = 0 :=
  evalNearestAngle_getOutput_none ⟨0, 0⟩ 0 (EvalNearestReset (EvalNearestInit 5)) rfl

end PyBeast
